import Mathlib

/-!
Shallow embedding of the `json-rules-engine` core described by
`src/index.d.ts` (type declarations for json-rules-engine 2.3) and its
specification.  The repository ships declarations only — classes, method
signatures and doc comments — so the runtime behaviour of the engine is
modelled from the specification's algorithm descriptions, while the data
shapes and method signatures are translated from the declaration file.
-/

namespace JsonRulesEngine

/-- JSON-ish fact values flowing through the engine.  `undef` models the
JavaScript `undefined` produced when an unregistered fact is tolerated
(`allowUndefinedFacts = true`). -/
inductive Value where
  | undef
  | null
  | bool (b : Bool)
  | int (n : Int)
  | str (s : String)
deriving DecidableEq, Repr

/-- A `params` object, as an insertion-ordered association list of fields
(the field order of a JavaScript object literal). -/
abbrev Params := List (String × Value)

/-- Association-list lookup by string key (JavaScript property access /
`Map.get`). -/
def alookup {α : Type} (k : String) : List (String × α) → Option α
  | [] => none
  | (k', v) :: t => if k = k' then some v else alookup k t

/-- Key-order relation used to canonicalize a params object: compare
fields by their key. -/
def keyLe (a b : String × Value) : Prop := a.1 ≤ b.1

instance : DecidableRel keyLe := fun a b => inferInstanceAs (Decidable (a.1 ≤ b.1))

instance : IsTotal (String × Value) keyLe := ⟨fun a b => le_total a.1 b.1⟩

instance : IsTrans (String × Value) keyLe := ⟨fun _ _ _ h₁ h₂ => le_trans h₁ h₂⟩

/-- Canonical ordering of a params object's fields: sort by key
(the spec's "sorted-key serialization"). -/
def canonicalParams (ps : Params) : Params := List.insertionSort keyLe ps

/-- Stable serialization of a single value ("stable number/string
formatting" of the spec). -/
def serializeValue : Value → String
  | .undef => "undefined"
  | .null => "null"
  | .bool b => if b then "true" else "false"
  | .int n => toString n
  | .str s => "\"" ++ s ++ "\""

/-- Serialize a field list in the given order. -/
def serializeFields : Params → String
  | [] => ""
  | (k, v) :: t => "\"" ++ k ++ "\":" ++ serializeValue v ++ ";" ++ serializeFields t

/-- `Fact.hashFromObject` (src/index.d.ts:230), modelled from the spec:
the MD5 digest of the canonical (sorted-key) serialization of the object.
The digest itself is modelled as the canonical serialization — the claims
concern key equality, which depends only on the serialization being
canonical, not on the hash function applied to it. -/
def hashFromObject (ps : Params) : String :=
  "\x7b" ++ serializeFields (canonicalParams ps) ++ "\x7d"

/-- `Fact.CONSTANT` vs `Fact.DYNAMIC`: a fact is a constant value or an
asynchronous computation over its params (src/index.d.ts:63, spec §3).
The computation is modelled as a pure function of the params; its
asynchrony is captured by the evaluation order of the run model. -/
inductive FactDefinition where
  | constant (v : Value)
  | dynamic (compute : Params → Value)

/-- `FactOptions` (src/index.d.ts:24-27). -/
structure FactOptions where
  cache : Bool
  priority : Int

/-- `Fact` (src/index.d.ts:167-232): id, constant-or-dynamic definition,
cache policy and priority.  Defaults per the constructor doc comment
(src/index.d.ts:173-176): cache `true`, priority `1`. -/
structure Fact where
  id : String
  definition : FactDefinition
  cacheEnabled : Bool := true
  priority : Int := 1

/-- `Fact` constructor (src/index.d.ts:179) with its documented option
defaults. -/
def Fact.make (id : String) (d : FactDefinition) (opts : Option FactOptions) : Fact :=
  ⟨id, d, (opts.map (fun o => o.cache)).getD true, (opts.map (fun o => o.priority)).getD 1⟩

/-- `Fact.defaultCacheKeys` (src/index.d.ts:198): the id plus the params. -/
def Fact.defaultCacheKeys (id : String) (ps : Params) : String × Params := (id, ps)

/-- Serialization of the `defaultCacheKeys` object used by `getCacheKey`:
its two fields, `id` before `params` in sorted key order, each serialized
canonically. -/
def cacheKeyString (f : Fact) (ps : Params) : String :=
  "\x7b\"id\":" ++ serializeValue (.str (Fact.defaultCacheKeys f.id ps).1) ++
    ",\"params\":" ++ hashFromObject (Fact.defaultCacheKeys f.id ps).2 ++ "\x7d"

/-- `Fact.getCacheKey` (src/index.d.ts:206): the hash of the
`defaultCacheKeys` object; per its doc comment it "returns nothing if the
Fact's caching has been disabled", modelled as `none`. -/
def Fact.getCacheKey (f : Fact) (ps : Params) : Option String :=
  if f.cacheEnabled then some (cacheKeyString f ps) else none

/-- `Fact.isConstant` (src/index.d.ts:212). -/
def Fact.isConstant (f : Fact) : Bool :=
  match f.definition with
  | .constant _ => true
  | .dynamic _ => false

/-- `Fact.isDynamic` (src/index.d.ts:218). -/
def Fact.isDynamic (f : Fact) : Bool := !f.isConstant

/-- Error taxonomy of the spec (§7) relevant to fact resolution and leaf
evaluation. -/
inductive EngineError where
  | undefinedFact (id : String)
  | unknownOperator (name : String)
deriving DecidableEq, Repr

/-- `Almanac` (src/index.d.ts:328-347, spec §3): per-run state holding the
registered facts, the caller-supplied runtime facts, and the memoization
cache keyed by cache-key string. -/
structure Almanac where
  factMap : List (String × Fact)
  runtimeFacts : List (String × Value)
  cache : List (String × Value)

/-- Per-run evaluation state: the almanac plus the log of fact ids whose
dynamic computation was invoked, in invocation order.  The log exists so
that "the computation is never invoked" claims are expressible. -/
structure RunSt where
  almanac : Almanac
  invoked : List String

/-- `Almanac.factValue` (src/index.d.ts:346), modelled from the spec
(§4.1, steps 1-4; step 5's `path` navigation is not modelled — no claim
depends on it):
1. a runtime fact of that id is returned directly, with no caching and no
   recomputation;
2. otherwise an unregistered fact is an `UndefinedFactError`, or resolves
   `undef` when `allowUndefinedFacts` is set;
3. a cached entry for the fact's cache key is returned as is;
4. otherwise the computation runs, is logged, and its value is stored
   under the cache key when caching is enabled. -/
def Almanac.factValue (allowUndefinedFacts : Bool) (st : RunSt) (factId : String)
    (params : Params) : RunSt × Except EngineError Value :=
  match alookup factId st.almanac.runtimeFacts with
  | some v => (st, .ok v)
  | none =>
    match alookup factId st.almanac.factMap with
    | none =>
      if allowUndefinedFacts then (st, .ok .undef) else (st, .error (.undefinedFact factId))
    | some f =>
      match f.definition with
      | .constant v => (st, .ok v)
      | .dynamic compute =>
        match f.getCacheKey params with
        | some key =>
          match alookup key st.almanac.cache with
          | some v => (st, .ok v)
          | none =>
            let v := compute params
            (⟨{ st.almanac with cache := (key, v) :: st.almanac.cache },
              st.invoked ++ [factId]⟩, .ok v)
        | none =>
          let v := compute params
          (⟨st.almanac, st.invoked ++ [factId]⟩, .ok v)

/-- A batch of `factValue` requests resolved against one almanac.
Concurrent requesters are modelled as a sequence of atomic `factValue`
steps in an arbitrary arrival order: per spec §4.1 step 4 the pending
computation is stored under the cache key before any later requester
runs, so a later requester observes the first's entry. -/
def factValueMany (allowUndefinedFacts : Bool) (st : RunSt) :
    List (String × Params) → RunSt × Except EngineError (List Value)
  | [] => (st, .ok [])
  | (fid, ps) :: rest =>
    match Almanac.factValue allowUndefinedFacts st fid ps with
    | (st', .error e) => (st', .error e)
    | (st', .ok v) =>
      match factValueMany allowUndefinedFacts st' rest with
      | (st'', .error e) => (st'', .error e)
      | (st'', .ok vs) => (st'', .ok (v :: vs))

/-- `Operator` (src/index.d.ts:234-252): a named binary predicate with an
optional fact-value validator. -/
structure Operator where
  name : String
  evaluate : Value → Value → Bool
  factValueValidator : Option (Value → Bool) := none

/-- `Operator.evaluate` guarded by the validator (spec §4.2): a fact value
failing the validator makes the leaf `false` without invoking the
evaluation callback. -/
def Operator.run (o : Operator) (factValue jsonValue : Value) : Bool :=
  match o.factValueValidator with
  | some validator => if validator factValue then o.evaluate factValue jsonValue else false
  | none => o.evaluate factValue jsonValue

/-- Lookup an operator by name in the engine's registry. -/
def findOperator (name : String) : List Operator → Option Operator
  | [] => none
  | o :: t => if o.name = name then some o else findOperator name t

/-- The two boolean combinators of a condition tree. -/
inductive CombType where
  | all
  | any
deriving DecidableEq, Repr

/-- Condition tree (spec §3): a leaf test
`\x7bfact, operator, value, params?, priority?\x7d` or a combinator
(`all`/`any`) over child conditions. This is the evaluated form of the
declarations' `BaseCondition`/`ConditionFields` shapes (the declared
interfaces themselves are embedded separately below, for the shape-
invariant claim). `path` navigation is not modelled. -/
inductive Condition where
  | leaf (fact : String) (op : String) (value : Value) (params : Params)
      (priority : Option Int)
  | comb (ctype : CombType) (children : List Condition) (priority : Option Int)

/-- A condition's scheduling priority (src/index.d.ts:281 doc comment,
spec §4.2): its explicit `priority` when present; a leaf without one
inherits the priority of its referenced fact; default `1`. -/
def conditionPriority (factMap : List (String × Fact)) : Condition → Int
  | .leaf fid _ _ _ pr =>
    pr.getD (match alookup fid factMap with
      | some f => f.priority
      | none => 1)
  | .comb _ _ pr => pr.getD 1

/-- Group a list into descending-priority tiers: one inner list per
distinct priority, highest first, each holding the members with that
priority in their original order (the shared shape of
`Rule.prioritizeConditions` and `Engine.prioritizeRules`,
src/index.d.ts:127 and 287). -/
def prioritizeBy {α : Type} (prio : α → Int) (xs : List α) : List (List α) :=
  (List.insertionSort (fun a b : Int => b ≤ a) (xs.map prio).dedup).map
    (fun p => xs.filter (fun x => prio x = p))

/-- `Rule.prioritizeConditions` (src/index.d.ts:287): conditions grouped
into a two-dimensional array by descending priority. -/
def prioritizeConditions (factMap : List (String × Fact)) (cs : List Condition) :
    List (List Condition) :=
  prioritizeBy (conditionPriority factMap) cs

/-- Evaluate a leaf condition (spec §4.2): resolve the fact value through
the almanac, look up the operator (`UnknownOperatorError` when absent),
treat an `undef` fact value as falsy, otherwise apply the
validator-guarded operator. -/
def evalLeaf (ops : List Operator) (allowUndefinedFacts : Bool) (st : RunSt)
    (fid opName : String) (jsonValue : Value) (ps : Params) :
    RunSt × Except EngineError Bool :=
  match Almanac.factValue allowUndefinedFacts st fid ps with
  | (st', .error e) => (st', .error e)
  | (st', .ok factValue) =>
    match findOperator opName ops with
    | none => (st', .error (.unknownOperator opName))
    | some o =>
      (st', .ok (if factValue = .undef then false else o.run factValue jsonValue))

/-- Evaluate every member of one tier, threading the run state, and
collect each member's boolean outcome.  All members of the tier are
evaluated (in-flight children finish) even when one is already decisive;
a member's error aborts the enclosing evaluation. -/
def evalTierWith {α : Type} (ev : α → RunSt → RunSt × Except EngineError Bool) :
    List α → RunSt → RunSt × Except EngineError (List Bool)
  | [], st => (st, .ok [])
  | c :: rest, st =>
    match ev c st with
    | (st', .error e) => (st', .error e)
    | (st', .ok b) =>
      match evalTierWith ev rest st' with
      | (st'', .error e) => (st'', .error e)
      | (st'', .ok bs) => (st'', .ok (b :: bs))

/-- Evaluate descending-priority tiers strictly in order (spec §4.2): for
`all`, stop with `false` as soon as a tier contains a `false` child,
scheduling no further tier; for `any`, stop with `true` on the first tier
containing a `true` child.  An exhausted tier list yields the
combinator's identity (`all` → `true`, `any` → `false`). -/
def evalTiersWith {α : Type} (ev : α → RunSt → RunSt × Except EngineError Bool)
    (t : CombType) : List (List α) → RunSt → RunSt × Except EngineError Bool
  | [], st => (st, .ok (t matches .all))
  | tier :: rest, st =>
    match evalTierWith ev tier st with
    | (st', .error e) => (st', .error e)
    | (st', .ok bs) =>
      match t with
      | .all => if bs.all id then evalTiersWith ev .all rest st' else (st', .ok false)
      | .any => if bs.any id then (st', .ok true) else evalTiersWith ev .any rest st'

/-- Evaluate a condition tree against the run state (spec §4.2): a leaf
per `evalLeaf`; a combinator partitions its children into
descending-priority tiers and evaluates them via `evalTiersWith`. -/
def evalCondition (ops : List Operator) (allowUndefinedFacts : Bool) :
    Condition → RunSt → RunSt × Except EngineError Bool
  | .leaf fid opName jsonValue ps _, st => evalLeaf ops allowUndefinedFacts st fid opName jsonValue ps
  | .comb t children _, st =>
    evalTiersWith (fun (c : { x // x ∈ children }) st => evalCondition ops allowUndefinedFacts c.1 st) t
      (prioritizeBy (fun c : { x // x ∈ children } => conditionPriority st.almanac.factMap c.1)
        children.attach) st
termination_by c => sizeOf c
decreasing_by
  have h := List.sizeOf_lt_of_mem c.2
  simp only [Condition.comb.sizeOf_spec]
  omega

/-- Combinator-tier evaluation specialised to conditions: `evalTiersWith`
over `evalCondition`. -/
def evalTiers (ops : List Operator) (allowUndefinedFacts : Bool) (t : CombType)
    (tiers : List (List Condition)) (st : RunSt) : RunSt × Except EngineError Bool :=
  evalTiersWith (evalCondition ops allowUndefinedFacts) t tiers st

/-- One condition tier evaluated via `evalCondition`. -/
def evalTier (ops : List Operator) (allowUndefinedFacts : Bool)
    (tier : List Condition) (st : RunSt) : RunSt × Except EngineError (List Bool) :=
  evalTierWith (evalCondition ops allowUndefinedFacts) tier st

/-- `EngineEvent` (src/index.d.ts:15-18): `\x7btype, params?\x7d`. -/
structure EngineEvent where
  type : String
  params : Option Value := none
deriving DecidableEq, Repr

/-- `Rule` (src/index.d.ts:254-326, spec §3): a condition tree, an event
payload and a priority (int ≥ 1, default 1). -/
structure Rule where
  conditions : Condition
  event : EngineEvent
  priority : Int := 1

/-- `RuleFields` (src/index.d.ts:29-33): the constructor input of a Rule.
The declaration admits `number | string` for `priority`; the constructor
parses the string form to an integer, so the parsed integer is what the
model receives. -/
structure RuleFields where
  conditions : Condition
  event : EngineEvent
  priority : Option Int := none

/-- `Rule.setPriority` (src/index.d.ts:317), modelled from the spec and
the constructor doc comment (src/index.d.ts:265): "Priority must be a
positive, non-zero integer"; a violation is a construction error. -/
def Rule.setPriority (r : Rule) (p : Int) : Except String Rule :=
  if 1 ≤ p then .ok { r with priority := p }
  else .error "Priority must be a positive, non-zero integer"

/-- `Rule` constructor (src/index.d.ts:270), modelled from the spec:
priority defaults to 1 when not supplied, and a supplied priority goes
through the `setPriority` validation. -/
def Rule.make (fields : RuleFields) : Except String Rule :=
  match fields.priority with
  | none => .ok ⟨fields.conditions, fields.event, 1⟩
  | some p => Rule.setPriority ⟨fields.conditions, fields.event, 1⟩ p

/-- `RuleResult` (src/index.d.ts:56-61): the outcome of one rule
evaluation (the annotated condition tree it also exposes is not modelled;
no claim depends on the annotations). -/
structure RuleResult where
  result : Bool
  event : EngineEvent
  priority : Int
deriving Repr

/-- `Rule.evaluate` (src/index.d.ts:277, spec §4.3): evaluate the root
combinator against the almanac; `true` yields a success result carrying
the rule's event, `false` a failure result, and a leaf error rejects the
rule's evaluation. -/
def Rule.evaluate (ops : List Operator) (allowUndefinedFacts : Bool) (r : Rule)
    (st : RunSt) : RunSt × Except EngineError RuleResult :=
  match evalCondition ops allowUndefinedFacts r.conditions st with
  | (st', .error e) => (st', .error e)
  | (st', .ok b) => (st', .ok ⟨b, r.event, r.priority⟩)

/-- `Engine` (src/index.d.ts:68-165): registries of rules, facts and
operators, plus the `allowUndefinedFacts` option (default `false`,
src/index.d.ts:74). -/
structure Engine where
  rules : List Rule := []
  facts : List (String × Fact) := []
  operators : List Operator := []
  allowUndefinedFacts : Bool := false

/-- Overwrite-by-id insertion into the fact registry (spec §4.4:
"additions are idempotent-by-id (overwrite)"). -/
def upsertFact : List (String × Fact) → String → Fact → List (String × Fact)
  | [], id, f => [(id, f)]
  | (k, g) :: t, id, f =>
    if k = id then (id, f) :: t else (k, g) :: upsertFact t id f

/-- `Engine.addFact` (src/index.d.ts:85): registers the fact and returns
the Engine.  The pair is (the engine's new state, the method's declared
return value); per the declaration the return value is the Engine itself,
which is what makes the call chainable. -/
def Engine.addFact (e : Engine) (id : String) (d : FactDefinition)
    (opts : Option FactOptions) : Engine × Engine :=
  let e' := { e with facts := upsertFact e.facts id (Fact.make id d opts) }
  (e', e')

/-- `Engine.addOperator` (src/index.d.ts:92): registers the operator; its
declared return type is `void`, modelled as `Unit` — the caller gets no
Engine back. -/
def Engine.addOperator (e : Engine) (name : String) (cb : Value → Value → Bool) :
    Engine × Unit :=
  ({ e with operators := e.operators ++ [⟨name, cb, none⟩] }, ())

/-- `Engine.addRule` (src/index.d.ts:104): builds the Rule from its
fields (validating the priority) and returns the Engine.  As for
`addFact`, the pair is (new state, declared return value). -/
def Engine.addRule (e : Engine) (fields : RuleFields) :
    Except String (Engine × Engine) :=
  (Rule.make fields).map (fun r =>
    let e' := { e with rules := e.rules ++ [r] }
    (e', e'))

/-- `Engine.prioritizeRules` (src/index.d.ts:127): rules grouped into a
two-dimensional array by descending priority. -/
def Engine.prioritizeRules (e : Engine) : List (List Rule) :=
  prioritizeBy (fun r => r.priority) e.rules

/-- Evaluate every rule of one tier, threading the run state.  A rule's
rejection is recorded as that rule's result and does not abort its
siblings (spec §7: one Rule's failure must not poison others). -/
def evalRuleTier (ops : List Operator) (allowUndefinedFacts : Bool) :
    List Rule → RunSt → RunSt × List (Except EngineError RuleResult)
  | [], st => (st, [])
  | r :: rest, st =>
    match Rule.evaluate ops allowUndefinedFacts r st with
    | (st', res) =>
      match evalRuleTier ops allowUndefinedFacts rest st' with
      | (st'', ress) => (st'', res :: ress)

/-- Run the rule tiers strictly in sequence (spec §4.4), checking the
stop flag between tiers only.  `stopDuring = some n` models an external
`stop()` call arriving while the (n+1)-st remaining tier evaluates: the
flag is first visible at the check following that tier, the tier's rules
all run to completion, and no later tier starts.  The returned Bool is
whether the run was stopped. -/
def runTiers (ops : List Operator) (allowUndefinedFacts : Bool) :
    List (List Rule) → Option Nat → RunSt →
    RunSt × List (Except EngineError RuleResult) × Bool
  | [], _, st => (st, [], false)
  | tier :: rest, stopDuring, st =>
    match evalRuleTier ops allowUndefinedFacts tier st with
    | (st', rs) =>
      match stopDuring with
      | some 0 => (st', rs, true)
      | some (k + 1) =>
        match runTiers ops allowUndefinedFacts rest (some k) st' with
        | (st'', rs', fl) => (st'', rs ++ rs', fl)
      | none =>
        match runTiers ops allowUndefinedFacts rest none st' with
        | (st'', rs', fl) => (st'', rs ++ rs', fl)

/-- The events the run's promise resolves with: one success event per
rule whose conditions held (spec §6 "Run output"). -/
def successEvents (rs : List (Except EngineError RuleResult)) : List EngineEvent :=
  rs.filterMap (fun r =>
    match r with
    | .ok rr => if rr.result then some rr.event else none
    | .error _ => none)

/-- The outcome of one `Engine.run` call: the collected success events it
resolves with, every evaluated rule's result, whether `stop()` cut the
run short, and the final run state. -/
structure RunOutput where
  events : List EngineEvent
  results : List (Except EngineError RuleResult)
  stopped : Bool
  finalState : RunSt

/-- `Engine.run` (src/index.d.ts:155), modelled from the spec (§4.4) and
generalised by the tier during which an external `stop()` call arrives
(`none` = no stop call): build a fresh almanac from the registered facts
and the runtime facts, group the rules into descending-priority tiers,
run the tiers in sequence, and resolve with the collected success
events. -/
def Engine.runWith (e : Engine) (runtimeFacts : List (String × Value))
    (stopDuring : Option Nat) : RunOutput :=
  match runTiers e.operators e.allowUndefinedFacts e.prioritizeRules stopDuring
      ⟨⟨e.facts, runtimeFacts, []⟩, []⟩ with
  | (st, rs, fl) => ⟨successEvents rs, rs, fl, st⟩

/-- A completed `Engine.run` call: no `stop()` arrives during the run. -/
def Engine.run (e : Engine) (runtimeFacts : List (String × Value)) : RunOutput :=
  e.runWith runtimeFacts none

/-- `BaseCondition` (src/index.d.ts:35-45), exactly as declared: `value`,
`fact` and `operator` are required fields, `factResult`, `result`,
`params`, `path`, `any`, `all` and `priority` (from `Prioritizable`) are
optional, and the `any`/`all` children are themselves `BaseCondition`
arrays.  An inductive is used because the interface is recursive. -/
inductive BaseCondition where
  | mk (value : Value) (fact : String) (op : String)
      (factResult : Option Value) (result : Option Bool)
      (params : Option Params) (path : Option String)
      (anyChildren : Option (List BaseCondition))
      (allChildren : Option (List BaseCondition))
      (priority : Option Int)

/-- The `all?` field of a `BaseCondition` (src/index.d.ts:44). -/
def BaseCondition.allChildren : BaseCondition → Option (List BaseCondition)
  | .mk _ _ _ _ _ _ _ _ al _ => al

/-- The `any?` field of a `BaseCondition` (src/index.d.ts:43). -/
def BaseCondition.anyChildren : BaseCondition → Option (List BaseCondition)
  | .mk _ _ _ _ _ _ _ an _ _ => an

/-- The required `fact` field of a `BaseCondition` (src/index.d.ts:37). -/
def BaseCondition.fact : BaseCondition → String
  | .mk _ f _ _ _ _ _ _ _ _ => f

/-- The spec's shape invariant instantiated at a node of the declared
`BaseCondition` interface: every such node carries the leaf fields
`fact`, `operator` and `value` (they are required by the declaration), so
the invariant's leaf clause — "a leaf node (carrying fact/operator/value)
never carries `all`/`any`" — demands that both child fields be absent. -/
def baseConditionShapeInvariant (c : BaseCondition) : Bool :=
  c.allChildren.isNone && c.anyChildren.isNone

/-- `ConditionFields` (src/index.d.ts:47-50), exactly as declared: both
`all?` and `any?` are optional, each holding children that are either
`ConditionFields` or `BaseCondition`, plus the optional `priority`. -/
inductive ConditionFields where
  | mk (allChildren : Option (List (ConditionFields ⊕ BaseCondition)))
      (anyChildren : Option (List (ConditionFields ⊕ BaseCondition)))
      (priority : Option Int)

/-- The `all?` field of a `ConditionFields` (src/index.d.ts:48). -/
def ConditionFields.allChildren :
    ConditionFields → Option (List (ConditionFields ⊕ BaseCondition))
  | .mk al _ _ => al

/-- The `any?` field of a `ConditionFields` (src/index.d.ts:49). -/
def ConditionFields.anyChildren :
    ConditionFields → Option (List (ConditionFields ⊕ BaseCondition))
  | .mk _ an _ => an

/-- The spec's shape invariant's combinator clause at a node of the
declared `ConditionFields` interface: a combinator node carries exactly
one of `all`/`any`, with a non-empty child list. -/
def conditionFieldsShapeInvariant (c : ConditionFields) : Bool :=
  match c.allChildren, c.anyChildren with
  | some l, none => !l.isEmpty
  | none, some l => !l.isEmpty
  | _, _ => false

/-! Concrete fixtures used to instantiate the theorems below. -/

/-- A standard `equal` operator. -/
def opEqual : Operator := ⟨"equal", fun a b => decide (a = b), none⟩

/-- A cached dynamic fact computing the constant 42. -/
def tempFact : Fact := Fact.make "temp" (.dynamic (fun _ => .int 42)) none

/-- A dynamic fact computing 0, referenced by the high-priority leaf. -/
def factHi : Fact := Fact.make "hi" (.dynamic (fun _ => .int 0)) none

/-- A dynamic fact computing 7, referenced by the low-priority leaf. -/
def factLow : Fact := Fact.make "low" (.dynamic (fun _ => .int 7)) none

/-- Run state with the two tier facts registered and nothing cached. -/
def stTierStart : RunSt := ⟨⟨[("hi", factHi), ("low", factLow)], [], []⟩, []⟩

/-- Run state after the priority-2 tier evaluated: `hi` computed and
cached, `low` untouched. -/
def stTierDone : RunSt :=
  ⟨⟨[("hi", factHi), ("low", factLow)], [], [(cacheKeyString factHi [], .int 0)]⟩, ["hi"]⟩

/-- Priority-2 tier: one leaf that evaluates to `false` (0 ≠ 1). -/
def tierHi : List Condition := [.leaf "hi" "equal" (.int 1) [] (some 2)]

/-- Priority-1 tier: a leaf whose fact must never be invoked. -/
def tierLow : List Condition := [.leaf "low" "equal" (.int 1) [] (some 1)]

/-- Run state with `temp` registered, for the dedup witness. -/
def stTemp : RunSt := ⟨⟨[("temp", tempFact)], [], []⟩, []⟩

/-- Run state where `temp` is registered and also runtime-supplied. -/
def stRuntime : RunSt := ⟨⟨[("temp", tempFact)], [("temp", .int 5)], []⟩, []⟩

/-- Run state with no registered and no runtime facts. -/
def stEmpty : RunSt := ⟨⟨[], [], []⟩, []⟩

/-- A rule over the missing fact `absent`, for the undefined-fact modes. -/
def ruleAbsent : Rule :=
  ⟨.comb .all [.leaf "absent" "equal" (.int 1) [] none] none, ⟨"hit", none⟩, 1⟩

/-- A fact whose caching is disabled. -/
def factNoCache : Fact := Fact.make "nc" (.constant (.int 0)) (some ⟨false, 1⟩)

/-- A params object. -/
def psAB : Params := [("b", .int 1), ("a", .str "x")]

/-- The same params object with its fields in the other insertion order. -/
def psBA : Params := [("a", .str "x"), ("b", .int 1)]

/-- A rule whose conditions hold for runtime fact `score = 1`. -/
def ruleFirst : Rule :=
  ⟨.comb .all [.leaf "score" "equal" (.int 1) [] none] none, ⟨"first", none⟩, 1⟩

/-- A second rule with the same conditions and another event. -/
def ruleSecond : Rule :=
  ⟨.comb .all [.leaf "score" "equal" (.int 1) [] none] none, ⟨"second", none⟩, 1⟩

/-- An engine holding the two rules above and the `equal` operator. -/
def engineTwoRules : Engine := ⟨[ruleFirst, ruleSecond], [], [opEqual], false⟩

/-- The run state `engineTwoRules.run` starts from (and, as no fact is
computed, ends at): runtime fact `score = 1`, empty registries. -/
def stScore : RunSt := ⟨⟨[], [("score", .int 1)], []⟩, []⟩

/-- A plain leaf-shaped `BaseCondition` value. -/
def leafOnlyBase : BaseCondition :=
  .mk (.int 21) "age" "greaterThan" none none none none none none none

/-- A well-typed `BaseCondition` that carries the (required) leaf fields
and simultaneously a non-empty `all` child list. -/
def badBase : BaseCondition :=
  .mk (.int 21) "age" "greaterThan" none none none none none (some [leafOnlyBase]) none

/-- A well-typed `ConditionFields` with neither `all` nor `any`. -/
def cfEmpty : ConditionFields := .mk none none none

/-- Rule fields without an explicit priority. -/
def ruleFieldsDefault : RuleFields :=
  ⟨.leaf "score" "equal" (.int 1) [] none, ⟨"matched", none⟩, none⟩

/-- The rule those fields construct: priority defaulted to 1. -/
def ruleDefault : Rule := ⟨.leaf "score" "equal" (.int 1) [] none, ⟨"matched", none⟩, 1⟩

/-- An engine with empty registries. -/
def emptyEngine : Engine := ⟨[], [], [], false⟩

/-- The engine after `addRule ruleFieldsDefault`. -/
def enginePlusRule : Engine := ⟨[ruleDefault], [], [], false⟩

/-! Helper lemmas (shared; not themselves claim theorems). -/

/-- Two key-sorted field lists that are permutations of each other and
have no duplicate keys are equal. -/
theorem sorted_perm_nodupKeys_eq :
    ∀ l₁ l₂ : Params, l₁.Perm l₂ → l₁.Sorted keyLe → l₂.Sorted keyLe →
      (l₁.map Prod.fst).Nodup → l₁ = l₂ := by
  intro l₁
  induction l₁ with
  | nil =>
    intro l₂ h _ _ _
    exact (h.symm.eq_nil).symm
  | cons a t ih =>
    intro l₂ h hs₁ hs₂ hnd
    cases l₂ with
    | nil => exact absurd h.eq_nil (by simp)
    | cons b u =>
      have hab : a = b := by
        have ha : a ∈ b :: u := h.mem_iff.mp (List.mem_cons_self a t)
        have hb : b ∈ a :: t := h.symm.mem_iff.mp (List.mem_cons_self b u)
        rcases List.mem_cons.mp ha with h1 | h1
        · exact h1
        rcases List.mem_cons.mp hb with h2 | h2
        · exact h2.symm
        exfalso
        have hba : keyLe b a := (List.sorted_cons.mp hs₂).1 a h1
        have hab' : keyLe a b := (List.sorted_cons.mp hs₁).1 b h2
        have hkey : a.1 = b.1 := le_antisymm hab' hba
        have hmem : a.1 ∈ t.map Prod.fst := List.mem_map.mpr ⟨b, h2, hkey.symm⟩
        have hnd' : a.1 ∉ t.map Prod.fst ∧ (t.map Prod.fst).Nodup := by
          rw [List.map_cons, List.nodup_cons] at hnd
          exact hnd
        exact hnd'.1 hmem
      subst hab
      have hrec : t = u := by
        apply ih u h.cons_inv (List.sorted_cons.mp hs₁).2 (List.sorted_cons.mp hs₂).2
        rw [List.map_cons, List.nodup_cons] at hnd
        exact hnd.2
      rw [hrec]

/-- Canonicalization is insensitive to field insertion order for objects
with (JavaScript-object-like) unique keys. -/
theorem canonicalParams_eq_of_perm {l₁ l₂ : Params} (h : l₁.Perm l₂)
    (hnd : (l₁.map Prod.fst).Nodup) : canonicalParams l₁ = canonicalParams l₂ := by
  apply sorted_perm_nodupKeys_eq
  · exact (List.perm_insertionSort keyLe l₁).trans
      (h.trans (List.perm_insertionSort keyLe l₂).symm)
  · exact List.sorted_insertionSort keyLe l₁
  · exact List.sorted_insertionSort keyLe l₂
  · exact ((List.perm_insertionSort keyLe l₁).map Prod.fst).nodup_iff.mpr hnd

/-- Pre-composing the member evaluator commutes with mapping the tier. -/
theorem evalTierWith_comp {α β : Type} (f : α → β)
    (ev : β → RunSt → RunSt × Except EngineError Bool) :
    ∀ (tier : List α) (st : RunSt),
      evalTierWith (fun a st => ev (f a) st) tier st = evalTierWith ev (tier.map f) st := by
  intro tier
  induction tier with
  | nil => intro st; rfl
  | cons c rest ih =>
    intro st
    simp only [evalTierWith, List.map_cons]
    rcases ev (f c) st with ⟨st', r⟩
    cases r with
    | error e => rfl
    | ok b =>
      dsimp only
      rw [ih st']

/-- Pre-composing the member evaluator commutes with mapping the tiers. -/
theorem evalTiersWith_comp {α β : Type} (f : α → β)
    (ev : β → RunSt → RunSt × Except EngineError Bool) (t : CombType) :
    ∀ (tiers : List (List α)) (st : RunSt),
      evalTiersWith (fun a st => ev (f a) st) t tiers st
        = evalTiersWith ev t (tiers.map (List.map f)) st := by
  intro tiers
  induction tiers with
  | nil => intro st; rfl
  | cons tier rest ih =>
    intro st
    simp only [evalTiersWith, List.map_cons]
    rw [evalTierWith_comp f ev tier st]
    rcases evalTierWith ev (tier.map f) st with ⟨st', r⟩
    cases r with
    | error e => rfl
    | ok bs =>
      cases t with
      | all =>
        by_cases hb : bs.all id
        · simp only [hb, if_true]
          exact ih st'
        · simp only [hb]
          simp
      | any =>
        by_cases hb : bs.any id
        · simp only [hb, if_true]
        · simp only [hb]
          simp only [Bool.false_eq_true, if_false]
          exact ih st'

/-- Tiering the attached children and stripping the attachment is the
plain prioritization. -/
theorem prioritizeBy_attach {α : Type} (prio : α → Int) (l : List α) :
    (prioritizeBy (fun c : { x // x ∈ l } => prio c.1) l.attach).map (List.map Subtype.val)
      = prioritizeBy prio l := by
  unfold prioritizeBy
  rw [List.map_map]
  have h1 : l.attach.map (fun c : { x // x ∈ l } => prio c.1) = l.map prio :=
    List.attach_map_val l prio
  rw [h1]
  congr 1
  funext p
  simp only [Function.comp_apply]
  have h2 : (fun x : { x // x ∈ l } => decide (prio x.1 = p))
      = (fun y => decide (prio y = p)) ∘ Subtype.val := rfl
  rw [h2, ← List.filter_map]
  congr 1
  exact List.attach_map_subtype_val l

/-- `evalCondition` at a combinator node is the tier evaluation of its
prioritized children. -/
theorem evalCondition_comb (ops : List Operator) (au : Bool) (t : CombType)
    (children : List Condition) (pr : Option Int) (st : RunSt) :
    evalCondition ops au (.comb t children pr) st
      = evalTiers ops au t (prioritizeConditions st.almanac.factMap children) st := by
  rw [evalCondition]
  rw [evalTiersWith_comp Subtype.val (evalCondition ops au) t]
  unfold evalTiers prioritizeConditions
  rw [prioritizeBy_attach (conditionPriority st.almanac.factMap) children]

/-- A cached-fact request whose key is present resolves from the cache:
state untouched, no computation. -/
theorem factValue_cache_hit (au : Bool) (st : RunSt) (fid : String) (f : Fact)
    (g : Params → Value) (ps : Params) (v : Value)
    (h1 : alookup fid st.almanac.runtimeFacts = none)
    (h2 : alookup fid st.almanac.factMap = some f)
    (h3 : f.definition = .dynamic g)
    (h4 : f.cacheEnabled = true)
    (h5 : alookup (cacheKeyString f ps) st.almanac.cache = some v) :
    Almanac.factValue au st fid ps = (st, .ok v) := by
  simp [Almanac.factValue, Fact.getCacheKey, h1, h2, h3, h4, h5]

/-- Repeated requests against a warm cache all resolve the cached value
and leave the state untouched. -/
theorem factValueMany_cache_hits (au : Bool) (st : RunSt) (fid : String) (f : Fact)
    (g : Params → Value) (ps : Params) (v : Value)
    (h1 : alookup fid st.almanac.runtimeFacts = none)
    (h2 : alookup fid st.almanac.factMap = some f)
    (h3 : f.definition = .dynamic g)
    (h4 : f.cacheEnabled = true)
    (h5 : alookup (cacheKeyString f ps) st.almanac.cache = some v) :
    ∀ n : Nat, factValueMany au st (List.replicate n (fid, ps)) = (st, .ok (List.replicate n v)) := by
  intro n
  induction n with
  | zero => rfl
  | succ m ih =>
    rw [List.replicate_succ]
    unfold factValueMany
    rw [factValue_cache_hit au st fid f g ps v h1 h2 h3 h4 h5]
    dsimp only
    rw [ih]
    rw [List.replicate_succ]

/-- The stopped run and the run over only the first `n+1` tiers agree on
final state and collected results. -/
theorem runTiers_stop_eq_take (ops : List Operator) (au : Bool) :
    ∀ (tiers : List (List Rule)) (n : Nat) (st : RunSt),
      (runTiers ops au tiers (some n) st).1 = (runTiers ops au (tiers.take (n + 1)) none st).1
      ∧ (runTiers ops au tiers (some n) st).2.1
          = (runTiers ops au (tiers.take (n + 1)) none st).2.1 := by
  intro tiers
  induction tiers with
  | nil => intro n st; exact ⟨rfl, rfl⟩
  | cons tier rest ih =>
    intro n st
    rw [List.take_succ_cons]
    unfold runTiers
    rcases evalRuleTier ops au tier st with ⟨st', rs⟩
    dsimp only
    cases n with
    | zero =>
      rw [List.take_zero]
      unfold runTiers
      simp
    | succ k =>
      dsimp only
      rcases hL : runTiers ops au rest (some k) st' with ⟨a, b, c⟩
      rcases hR : runTiers ops au (rest.take (k + 1)) none st' with ⟨a', b', c'⟩
      have hIH := ih k st'
      rw [hL, hR] at hIH
      exact ⟨hIH.1, by rw [hIH.2]⟩

/-- A singleton list prioritizes to one tier holding its element. -/
theorem prioritizeBy_singleton {α : Type} (prio : α → Int) (x : α) :
    prioritizeBy prio [x] = [[x]] := by
  simp [prioritizeBy, List.insertionSort, List.orderedInsert]

/-- `evalCondition` at a leaf node is `evalLeaf`. -/
theorem evalCondition_leaf (ops : List Operator) (au : Bool) (fid opName : String)
    (jv : Value) (ps : Params) (pr : Option Int) (st : RunSt) :
    evalCondition ops au (.leaf fid opName jv ps pr) st
      = evalLeaf ops au st fid opName jv ps := by
  rw [evalCondition]

/-- A one-leaf `all` combinator evaluates exactly as its leaf. -/
theorem evalCondition_single_leaf (ops : List Operator) (au : Bool)
    (fid opName : String) (jv : Value) (ps : Params) (pr cp : Option Int) (st : RunSt) :
    evalCondition ops au (.comb .all [.leaf fid opName jv ps pr] cp) st
      = evalLeaf ops au st fid opName jv ps := by
  rw [evalCondition_comb]
  unfold prioritizeConditions
  rw [prioritizeBy_singleton]
  unfold evalTiers evalTiersWith evalTierWith
  rw [evalCondition_leaf]
  rcases evalLeaf ops au st fid opName jv ps with ⟨st', r⟩
  cases r with
  | error e => rfl
  | ok b =>
    dsimp only
    cases b with
    | true => rfl
    | false => rfl

/-- `Engine.runWith` in terms of its `runTiers` core. -/
theorem runWith_eq (e : Engine) (rf : List (String × Value)) (sd : Option Nat) :
    e.runWith rf sd
      = ⟨successEvents (runTiers e.operators e.allowUndefinedFacts e.prioritizeRules sd
            ⟨⟨e.facts, rf, []⟩, []⟩).2.1,
          (runTiers e.operators e.allowUndefinedFacts e.prioritizeRules sd
            ⟨⟨e.facts, rf, []⟩, []⟩).2.1,
          (runTiers e.operators e.allowUndefinedFacts e.prioritizeRules sd
            ⟨⟨e.facts, rf, []⟩, []⟩).2.2,
          (runTiers e.operators e.allowUndefinedFacts e.prioritizeRules sd
            ⟨⟨e.facts, rf, []⟩, []⟩).1⟩ := by
  unfold Engine.runWith
  rcases hE : runTiers e.operators e.allowUndefinedFacts e.prioritizeRules sd
      ⟨⟨e.facts, rf, []⟩, []⟩ with ⟨st, rs, fl⟩
  rfl

/-! Claim theorems. -/

/-- C2: for a fact with caching enabled, `n` concurrent `factValue`
requests for the same `(factId, params)` pair within one run trigger
exactly one invocation of the fact's computation (the invocation log
grows by the single entry `fid`), and all `n` requesters resolve with the
identical value `g ps`. -/
theorem cache_dedup_single_computation (au : Bool) (st : RunSt) (fid : String) (f : Fact)
    (g : Params → Value) (ps : Params) (n : Nat)
    (h1 : alookup fid st.almanac.runtimeFacts = none)
    (h2 : alookup fid st.almanac.factMap = some f)
    (h3 : f.definition = .dynamic g)
    (h4 : f.cacheEnabled = true)
    (h5 : alookup (cacheKeyString f ps) st.almanac.cache = none)
    (h6 : 1 ≤ n) :
    factValueMany au st (List.replicate n (fid, ps))
      = (⟨⟨st.almanac.factMap, st.almanac.runtimeFacts,
            (cacheKeyString f ps, g ps) :: st.almanac.cache⟩,
          st.invoked ++ [fid]⟩, .ok (List.replicate n (g ps))) := by
  obtain ⟨m, rfl⟩ : ∃ m, n = m + 1 := ⟨n - 1, by omega⟩
  rw [List.replicate_succ]
  unfold factValueMany
  have hfv : Almanac.factValue au st fid ps
      = (⟨⟨st.almanac.factMap, st.almanac.runtimeFacts,
            (cacheKeyString f ps, g ps) :: st.almanac.cache⟩,
          st.invoked ++ [fid]⟩, .ok (g ps)) := by
    simp [Almanac.factValue, Fact.getCacheKey, h1, h2, h3, h4, h5]
  rw [hfv]
  dsimp only
  rw [factValueMany_cache_hits au
      ⟨⟨st.almanac.factMap, st.almanac.runtimeFacts,
          (cacheKeyString f ps, g ps) :: st.almanac.cache⟩, st.invoked ++ [fid]⟩
      fid f g ps (g ps) h1 h2 h3 h4 (by simp [alookup]) m]
  dsimp only
  rw [List.replicate_succ]

/-- Witness for C2: three requests for the cached dynamic fact `temp`
compute once (`invoked = ["temp"]`) and all resolve `42`. -/
theorem cache_dedup_single_computation_witness :
    factValueMany true stTemp (List.replicate 3 ("temp", []))
      = (⟨⟨[("temp", tempFact)], [], [(cacheKeyString tempFact [], .int 42)]⟩, ["temp"]⟩,
          .ok (List.replicate 3 (.int 42))) :=
  cache_dedup_single_computation true stTemp "temp" tempFact (fun _ => .int 42) [] 3
    rfl rfl rfl rfl rfl (by omega)

/-- C4: when a factId is supplied as a runtime fact, `factValue` returns
the runtime value directly: the state — cache and invocation log — is
returned untouched, so the registered fact's computation is never invoked
and no cache entry is written; since `st` is arbitrary, the result is
also independent of whatever the cache holds, so no entry is consulted. -/
theorem runtime_fact_precedence (au : Bool) (st : RunSt) (fid : String) (ps : Params)
    (v : Value) (h : alookup fid st.almanac.runtimeFacts = some v) :
    Almanac.factValue au st fid ps = (st, .ok v) := by
  unfold Almanac.factValue
  rw [h]

/-- Witness for C4: `temp` is both registered (computing 42) and runtime-
supplied as 5; the lookup resolves 5 and leaves the state untouched. -/
theorem runtime_fact_precedence_witness :
    alookup "temp" stRuntime.almanac.runtimeFacts = some (.int 5)
    ∧ Almanac.factValue false stRuntime "temp" [] = (stRuntime, .ok (.int 5)) :=
  ⟨rfl, runtime_fact_precedence false stRuntime "temp" [] (.int 5) rfl⟩

/-- C7: the cache-key derivation is insensitive to field insertion order:
structurally-equal params objects (permutations with unique keys) hash to
identical strings, `getCacheKey` therefore yields identical keys, and
`getCacheKey` returns nothing when the fact's caching is disabled. -/
theorem cache_key_order_insensitive :
    (∀ ps₁ ps₂ : Params, ps₁.Perm ps₂ → (ps₁.map Prod.fst).Nodup →
        hashFromObject ps₁ = hashFromObject ps₂)
    ∧ (∀ (f : Fact) (ps₁ ps₂ : Params), ps₁.Perm ps₂ → (ps₁.map Prod.fst).Nodup →
        f.getCacheKey ps₁ = f.getCacheKey ps₂)
    ∧ (∀ (f : Fact) (ps : Params), f.cacheEnabled = false → f.getCacheKey ps = none) := by
  have hhash : ∀ ps₁ ps₂ : Params, ps₁.Perm ps₂ → (ps₁.map Prod.fst).Nodup →
      hashFromObject ps₁ = hashFromObject ps₂ := by
    intro ps₁ ps₂ h hnd
    unfold hashFromObject
    rw [canonicalParams_eq_of_perm h hnd]
  refine ⟨hhash, ?_, ?_⟩
  · intro f ps₁ ps₂ h hnd
    unfold Fact.getCacheKey cacheKeyString Fact.defaultCacheKeys
    rw [hhash ps₁ ps₂ h hnd]
  · intro f ps h
    unfold Fact.getCacheKey
    simp [h]

/-- Witness for C7: concrete two-field objects in the two insertion
orders hash identically, and a cache-disabled fact has no cache key. -/
theorem cache_key_order_insensitive_witness :
    psAB.Perm psBA ∧ (psAB.map Prod.fst).Nodup
    ∧ hashFromObject psAB = hashFromObject psBA
    ∧ factNoCache.cacheEnabled = false ∧ factNoCache.getCacheKey psAB = none :=
  ⟨by decide, by decide,
    cache_key_order_insensitive.1 psAB psBA (by decide) (by decide),
    rfl, cache_key_order_insensitive.2.2 factNoCache psAB rfl⟩

/-- C3: a leaf referencing a factId with no registered fact and no
runtime override makes the owning rule's evaluation reject with
`UndefinedFactError` when `allowUndefinedFacts` is `false`; with
`allowUndefinedFacts` `true`, the leaf resolves to the falsy `undef`
value and the rule's evaluation completes normally (with a `false`
result). -/
theorem undefined_fact_modes (ops : List Operator) (o : Operator) (st : RunSt)
    (fid opName : String) (jv : Value) (ps : Params) (pr cp : Option Int)
    (ev : EngineEvent) (rp : Int)
    (hr : alookup fid st.almanac.runtimeFacts = none)
    (hf : alookup fid st.almanac.factMap = none)
    (hop : findOperator opName ops = some o) :
    Rule.evaluate ops false ⟨.comb .all [.leaf fid opName jv ps pr] cp, ev, rp⟩ st
      = (st, .error (.undefinedFact fid))
    ∧ Rule.evaluate ops true ⟨.comb .all [.leaf fid opName jv ps pr] cp, ev, rp⟩ st
      = (st, .ok ⟨false, ev, rp⟩) := by
  constructor
  · unfold Rule.evaluate
    dsimp only
    rw [evalCondition_single_leaf]
    simp [evalLeaf, Almanac.factValue, hr, hf]
  · unfold Rule.evaluate
    dsimp only
    rw [evalCondition_single_leaf]
    simp [evalLeaf, Almanac.factValue, hr, hf, hop]

/-- Witness for C3: the rule over the unregistered fact `absent` rejects
in strict mode and completes with a `false` result in lenient mode. -/
theorem undefined_fact_modes_witness :
    alookup "absent" stEmpty.almanac.factMap = none
    ∧ Rule.evaluate [opEqual] false ruleAbsent stEmpty
        = (stEmpty, .error (.undefinedFact "absent"))
    ∧ Rule.evaluate [opEqual] true ruleAbsent stEmpty
        = (stEmpty, .ok ⟨false, ⟨"hit", none⟩, 1⟩) :=
  ⟨rfl,
    (undefined_fact_modes [opEqual] opEqual stEmpty "absent" "equal" (.int 1) [] none none
      ⟨"hit", none⟩ 1 rfl rfl rfl).1,
    (undefined_fact_modes [opEqual] opEqual stEmpty "absent" "equal" (.int 1) [] none none
      ⟨"hit", none⟩ 1 rfl rfl rfl).2⟩

/-- C5: a combinator evaluates its children as descending-priority tiers
(first conjunct), and once a tier contains a child that evaluated to
`false`, an `all` combinator reports `false` with exactly the state the
failing tier produced — the invocation log gains nothing from lower
tiers, whose fact computations are never scheduled, and the outcome is
independent of what the lower tiers even are; symmetrically an `any`
combinator short-circuits on the first tier containing a `true` child. -/
theorem tiered_short_circuit :
    (∀ (ops : List Operator) (au : Bool) (t : CombType) (children : List Condition)
        (pr : Option Int) (st : RunSt),
        evalCondition ops au (.comb t children pr) st
          = evalTiers ops au t (prioritizeConditions st.almanac.factMap children) st)
    ∧ (∀ (ops : List Operator) (au : Bool) (tier : List Condition)
        (rest rest' : List (List Condition)) (st st' : RunSt) (bs : List Bool),
        evalTier ops au tier st = (st', .ok bs) → false ∈ bs →
          evalTiers ops au .all (tier :: rest) st = (st', .ok false)
          ∧ evalTiers ops au .all (tier :: rest) st
              = evalTiers ops au .all (tier :: rest') st)
    ∧ (∀ (ops : List Operator) (au : Bool) (tier : List Condition)
        (rest rest' : List (List Condition)) (st st' : RunSt) (bs : List Bool),
        evalTier ops au tier st = (st', .ok bs) → true ∈ bs →
          evalTiers ops au .any (tier :: rest) st = (st', .ok true)
          ∧ evalTiers ops au .any (tier :: rest) st
              = evalTiers ops au .any (tier :: rest') st) := by
  refine ⟨evalCondition_comb, ?_, ?_⟩
  · intro ops au tier rest rest' st st' bs hTier hFalse
    unfold evalTier at hTier
    have hAll : bs.all id = false := by
      cases hb : bs.all id
      · rfl
      · exact absurd (List.all_eq_true.mp hb false hFalse) (by simp)
    have key : ∀ r₀ : List (List Condition),
        evalTiers ops au .all (tier :: r₀) st = (st', .ok false) := by
      intro r₀
      unfold evalTiers evalTiersWith
      rw [hTier]
      dsimp only
      rw [hAll]
      simp
    exact ⟨key rest, (key rest).trans (key rest').symm⟩
  · intro ops au tier rest rest' st st' bs hTier hTrue
    unfold evalTier at hTier
    have hAny : bs.any id = true := List.any_eq_true.mpr ⟨true, hTrue, rfl⟩
    have key : ∀ r₀ : List (List Condition),
        evalTiers ops au .any (tier :: r₀) st = (st', .ok true) := by
      intro r₀
      unfold evalTiers evalTiersWith
      rw [hTier]
      dsimp only
      rw [hAny]
      simp
    exact ⟨key rest, (key rest).trans (key rest').symm⟩

/-- Witness for C5: the priority-2 tier's leaf evaluates `false`
(computing fact `hi`); the combinator reports `false` with invocation log
`["hi"]` — fact `low` of the priority-1 tier is never invoked — and the
outcome equals that of the run without the lower tier at all. -/
theorem tiered_short_circuit_witness :
    evalTiers [opEqual] false .all [tierHi, tierLow] stTierStart = (stTierDone, .ok false)
    ∧ evalTiers [opEqual] false .all [tierHi, tierLow] stTierStart
        = evalTiers [opEqual] false .all [tierHi] stTierStart :=
  tiered_short_circuit.2.1 [opEqual] false tierHi [tierLow] [] stTierStart stTierDone [false]
    (by unfold evalTier evalTierWith tierHi
        dsimp only
        rw [evalCondition_leaf]
        rfl)
    (by simp)

/-- C6: a run during whose (n+1)-st tier `stop()` arrives produces
exactly the results, success events, and fact computations of running
only the first n+1 rule tiers: the tier in flight when `stop()` is called
runs to completion and still contributes its events, no later tier's rule
ever begins evaluation, and the dropped rules contribute no result and no
event (they are absent from the output entirely). -/
theorem stop_between_tiers (e : Engine) (rf : List (String × Value)) (n : Nat) :
    (e.runWith rf (some n)).results
      = (runTiers e.operators e.allowUndefinedFacts (e.prioritizeRules.take (n + 1)) none
          ⟨⟨e.facts, rf, []⟩, []⟩).2.1
    ∧ (e.runWith rf (some n)).events
      = successEvents (runTiers e.operators e.allowUndefinedFacts
          (e.prioritizeRules.take (n + 1)) none ⟨⟨e.facts, rf, []⟩, []⟩).2.1
    ∧ (e.runWith rf (some n)).finalState
      = (runTiers e.operators e.allowUndefinedFacts (e.prioritizeRules.take (n + 1)) none
          ⟨⟨e.facts, rf, []⟩, []⟩).1 := by
  have h := runTiers_stop_eq_take e.operators e.allowUndefinedFacts e.prioritizeRules n
      ⟨⟨e.facts, rf, []⟩, []⟩
  rw [runWith_eq]
  exact ⟨h.2, by rw [h.2], h.1⟩

/-- C1 (evidence at the failing input): a completed run of an engine with
two rules whose conditions both hold resolves with the collection of both
success events — two events, not one.  The declaration
(src/index.d.ts:155) types this resolution as a single `EngineEvent`,
which cannot carry this two-event collection. -/
theorem run_resolves_event_collection :
    (engineTwoRules.run [("score", .int 1)]).events
      = [⟨"first", none⟩, ⟨"second", none⟩]
    ∧ (engineTwoRules.run [("score", .int 1)]).events.length = 2 := by
  have hr1 : Rule.evaluate [opEqual] false ruleFirst stScore
      = (stScore, .ok ⟨true, ⟨"first", none⟩, 1⟩) := by
    unfold Rule.evaluate ruleFirst
    dsimp only
    rw [evalCondition_single_leaf]
    rfl
  have hr2 : Rule.evaluate [opEqual] false ruleSecond stScore
      = (stScore, .ok ⟨true, ⟨"second", none⟩, 1⟩) := by
    unfold Rule.evaluate ruleSecond
    dsimp only
    rw [evalCondition_single_leaf]
    rfl
  have ht2 : evalRuleTier [opEqual] false [ruleSecond] stScore
      = (stScore, [.ok ⟨true, ⟨"second", none⟩, 1⟩]) := by
    unfold evalRuleTier
    rw [hr2]
    rfl
  have ht12 : evalRuleTier [opEqual] false [ruleFirst, ruleSecond] stScore
      = (stScore, [.ok ⟨true, ⟨"first", none⟩, 1⟩, .ok ⟨true, ⟨"second", none⟩, 1⟩]) := by
    unfold evalRuleTier
    rw [hr1]
    dsimp only
    rw [ht2]
  have hrt : runTiers [opEqual] false [[ruleFirst, ruleSecond]] none stScore
      = (stScore, [.ok ⟨true, ⟨"first", none⟩, 1⟩, .ok ⟨true, ⟨"second", none⟩, 1⟩],
          false) := by
    unfold runTiers
    rw [ht12]
    rfl
  have hrun : engineTwoRules.run [("score", .int 1)]
      = ⟨[⟨"first", none⟩, ⟨"second", none⟩],
          [.ok ⟨true, ⟨"first", none⟩, 1⟩, .ok ⟨true, ⟨"second", none⟩, 1⟩],
          false, stScore⟩ := by
    unfold Engine.run
    rw [runWith_eq]
    rw [show engineTwoRules.prioritizeRules = [[ruleFirst, ruleSecond]] from rfl]
    rw [show engineTwoRules.operators = [opEqual] from rfl]
    rw [show engineTwoRules.allowUndefinedFacts = false from rfl]
    rw [show engineTwoRules.facts = ([] : List (String × Fact)) from rfl]
    rw [show (⟨⟨[], [("score", Value.int 1)], []⟩, []⟩ : RunSt) = stScore from rfl]
    rw [hrt]
    rfl
  exact ⟨by rw [hrun], by rw [hrun]; rfl⟩

/-- C8 (counterexample): the declared condition interfaces admit
well-typed nodes violating the claimed shape invariant — `badBase` is a
`BaseCondition` carrying the required leaf fields together with a
non-empty `all` child list, and `cfEmpty` is a `ConditionFields` carrying
neither combinator key.  So it is not the case that every node of the
declared types satisfies the invariant. -/
theorem condition_shape_counterexample :
    baseConditionShapeInvariant badBase = false
    ∧ conditionFieldsShapeInvariant cfEmpty = false :=
  ⟨rfl, rfl⟩

/-- C8 (amended): the declared types do not enforce the shape invariant.
Every `BaseCondition` carries the required leaf fields `fact`, `operator`
and `value`, so by the invariant's leaf clause any `BaseCondition` that
additionally carries an `all` or `any` child field violates the
invariant — yet the declaration allows both fields. -/
theorem base_condition_children_violate_shape (c : BaseCondition)
    (h : c.allChildren.isSome = true ∨ c.anyChildren.isSome = true) :
    baseConditionShapeInvariant c = false := by
  unfold baseConditionShapeInvariant
  rcases h with h | h
  · cases hc : c.allChildren with
    | none => rw [hc] at h; simp at h
    | some l => simp [hc]
  · cases hc : c.anyChildren with
    | none => rw [hc] at h; simp at h
    | some l => simp [hc]

/-- Witness for the amended C8: `badBase` carries an `all` list and
violates the invariant. -/
theorem base_condition_children_violate_shape_witness :
    badBase.allChildren.isSome = true ∧ baseConditionShapeInvariant badBase = false :=
  ⟨rfl, base_condition_children_violate_shape badBase (Or.inl rfl)⟩

/-- C9: every constructed rule's priority is a positive, non-zero integer
(≥ 1): the constructor defaults it to 1 when not supplied, a supplied or
reset priority passes `setPriority`'s ≥ 1 validation, and every rule an
`addRule` call registers satisfies the bound. -/
theorem rule_priority_ge_one :
    (∀ (fields : RuleFields) (r : Rule), Rule.make fields = .ok r → 1 ≤ r.priority)
    ∧ (∀ (fields : RuleFields) (r : Rule), fields.priority = none →
        Rule.make fields = .ok r → r.priority = 1)
    ∧ (∀ (r : Rule) (p : Int) (r' : Rule), Rule.setPriority r p = .ok r' →
        1 ≤ r'.priority ∧ r'.priority = p)
    ∧ (∀ (e : Engine) (fields : RuleFields) (x : Engine × Engine),
        Engine.addRule e fields = .ok x →
          ∃ r : Rule, x.1.rules = e.rules ++ [r] ∧ 1 ≤ r.priority) := by
  have hset : ∀ (r : Rule) (p : Int) (r' : Rule), Rule.setPriority r p = .ok r' →
      1 ≤ r'.priority ∧ r'.priority = p := by
    intro r p r' h
    unfold Rule.setPriority at h
    by_cases hp : 1 ≤ p
    · rw [if_pos hp] at h
      injection h with h'
      subst h'
      exact ⟨hp, rfl⟩
    · rw [if_neg hp] at h
      exact absurd h (by simp)
  have hmk : ∀ (fields : RuleFields) (r : Rule), Rule.make fields = .ok r →
      1 ≤ r.priority := by
    intro fields r h
    unfold Rule.make at h
    cases hf : fields.priority with
    | none =>
      rw [hf] at h
      injection h with h'
      subst h'
      exact le_refl 1
    | some p =>
      rw [hf] at h
      exact (hset _ p r h).1
  refine ⟨hmk, ?_, hset, ?_⟩
  · intro fields r hf h
    unfold Rule.make at h
    rw [hf] at h
    injection h with h'
    subst h'
    rfl
  · intro e fields x h
    unfold Engine.addRule at h
    cases hm : Rule.make fields with
    | error s => rw [hm] at h; simp [Except.map] at h
    | ok r =>
      rw [hm] at h
      simp only [Except.map] at h
      injection h with h'
      exact ⟨r, by rw [← h'], hmk fields r hm⟩

/-- Witness for C9: fields without a priority construct a rule of
priority exactly 1, which satisfies the ≥ 1 bound. -/
theorem rule_priority_ge_one_witness :
    Rule.make ruleFieldsDefault = .ok ruleDefault
    ∧ 1 ≤ ruleDefault.priority ∧ ruleDefault.priority = 1 :=
  ⟨rfl, rule_priority_ge_one.1 ruleFieldsDefault ruleDefault rfl,
    rule_priority_ge_one.2.1 ruleFieldsDefault ruleDefault rfl rfl⟩

/-- C10: `addFact` and `addRule` return the Engine instance — their
declared return value is exactly the engine state they produce, which is
what makes the calls chainable — whereas `addOperator`'s declared return
is `void` (`Unit`): registering an operator hands nothing back and cannot
be chained. -/
theorem add_method_return_values :
    (∀ (e : Engine) (id : String) (d : FactDefinition) (opts : Option FactOptions),
        (Engine.addFact e id d opts).2 = (Engine.addFact e id d opts).1)
    ∧ (∀ (e : Engine) (fields : RuleFields) (x : Engine × Engine),
        Engine.addRule e fields = .ok x → x.2 = x.1)
    ∧ (∀ (e : Engine) (name : String) (cb : Value → Value → Bool),
        (Engine.addOperator e name cb).2 = ()) := by
  refine ⟨fun _ _ _ _ => rfl, ?_, fun _ _ _ => rfl⟩
  intro e fields x h
  unfold Engine.addRule at h
  cases hm : Rule.make fields with
  | error s => rw [hm] at h; simp [Except.map] at h
  | ok r =>
    rw [hm] at h
    simp only [Except.map] at h
    injection h with h'
    rw [← h']

/-- Witness for C10: a concrete `addRule` call returns the very engine it
produced. -/
theorem add_method_return_values_witness :
    Engine.addRule emptyEngine ruleFieldsDefault = .ok (enginePlusRule, enginePlusRule)
    ∧ ((enginePlusRule, enginePlusRule) : Engine × Engine).2
        = ((enginePlusRule, enginePlusRule) : Engine × Engine).1 :=
  ⟨rfl, add_method_return_values.2.1 emptyEngine ruleFieldsDefault
    (enginePlusRule, enginePlusRule) rfl⟩

end JsonRulesEngine
